import Mathlib

/- A shallow embedding of the serverless-single-page-app-plugin source
(src/index.js) and proofs about its observable behaviour.

The plugin is modelled as pure functions over an explicit environment: the
responses of the deployment provider, the provider configuration read from
the framework, the configured local path and the behaviour of the spawned
external process are inputs; the log lines written through the CLI and the
external commands handed to the process spawner are outputs.  JavaScript
promise rejections and thrown errors are modelled with Except.  An
operation whose source neither returns nor awaits its promise chain is
modelled with a result type that carries no value or error channel, since
nothing of the chain is observable at its entry point. -/

namespace Plugin

/-- Errors of the JavaScript runtime as they appear in the plugin: a
TypeError thrown by a property access on undefined, or an Error constructed
from a message. -/
inductive JsError where
  | typeError (msg : String) : JsError
  | error (msg : String) : JsError
  deriving DecidableEq

/-- One stack output entry, a key/value pair of strings. -/
structure Output where
  OutputKey : String
  OutputValue : String
  deriving DecidableEq

/-- One element of the Stacks array of a describeStacks response. -/
structure Stack where
  Outputs : List Output
  deriving DecidableEq

/-- The response of the CloudFormation describeStacks provider request. -/
structure DescribeStacksResponse where
  Stacks : List Stack
  deriving DecidableEq

/-- One CloudFront distribution as returned by listDistributions. -/
structure Distribution where
  Id : String
  DomainName : String
  deriving DecidableEq

/-- The DistributionList object of a listDistributions response. -/
structure DistributionItems where
  Items : List Distribution
  deriving DecidableEq

/-- The response of the CloudFront listDistributions provider request. -/
structure ListDistributionsResponse where
  DistributionList : DistributionItems
  deriving DecidableEq

/-- The region and profile read from serverless.variables.service.provider;
none models an undefined field. -/
structure ProviderConfig where
  region : Option String
  profile : Option String
  deriving DecidableEq

/-- What spawnSync hands back: the captured streams, already converted to
text, and the numeric exit status of the process. -/
structure SpawnResult where
  stdout : String
  stderr : String
  status : Int
  deriving DecidableEq

/-- The inputs of one plugin invocation: the results the provider requests
would deliver, the configured region and profile, the configured
s3LocalPath, and the behaviour of the external process spawner (mapping a
command string and an args array to a spawn result). -/
structure Env where
  describeStacksResult : Except JsError DescribeStacksResponse
  listDistributionsResult : Except JsError ListDistributionsResponse
  provider : ProviderConfig
  s3LocalPath : String
  spawn : String → List String → SpawnResult

/-- JavaScript falsiness of a string value: only the empty string is falsy. -/
def jsFalsy (s : String) : Bool := s == ""

/-- Models the JavaScript expression v || fallback for string v, as used in
the info log lines of the source. -/
def jsOr (v fallback : String) : String := if jsFalsy v then fallback else v

/-- String conversion of a JavaScript array of strings, as cli.log renders
the args array in syncDirectory: the elements joined by commas. -/
def jsArrayToString (l : List String) : String := String.intercalate "," l

/-- Embeds getDescribeStacksOutput (src/index.js lines 54-70).  The
provider request result is an input; the then-callback reads
result.Stacks[0].Outputs, scans it with Array.prototype.find for an exact
OutputKey match, and returns output.OutputValue.  When no entry matches,
find yields undefined and the property access throws a TypeError, so the
returned promise rejects; likewise when Stacks is empty. -/
def getDescribeStacksOutput (res : Except JsError DescribeStacksResponse)
    (outputKey : String) : Except JsError String :=
  match res with
  | Except.error e => Except.error e
  | Except.ok result =>
    match result.Stacks.head? with
    | none => Except.error (JsError.typeError "Cannot read property Outputs of undefined")
    | some stack =>
      match stack.Outputs.find? (fun entry => entry.OutputKey == outputKey) with
      | some output => Except.ok output.OutputValue
      | none => Except.error (JsError.typeError "Cannot read property OutputValue of undefined")

/-- Embeds the command-string construction of runAwsCommand (lines
166-172): the string aws, extended by a region modifier when the
configured region is truthy, then by a profile modifier when the
configured profile is truthy. -/
def buildAwsCommand (cfg : ProviderConfig) : String :=
  let command := "aws"
  let command :=
    match cfg.region with
    | some r => if jsFalsy r then command else command ++ " --region " ++ r
    | none => command
  match cfg.profile with
  | some p => if jsFalsy p then command else command ++ " --profile " ++ p
  | none => command

/-- Array.prototype.join with a single-space separator, which is how Node
child_process splices the command string and the args array into one shell
line when the shell option is set. -/
def joinTokens : List String → String
  | [] => ""
  | t :: ts => ts.foldl (fun acc s => acc ++ " " ++ s) t

/-- The full shell line that spawnSync(command, args, shell true) executes:
the command string and the args joined by single spaces. -/
def shellCommandLine (cfg : ProviderConfig) (args : List String) : String :=
  joinTokens (buildAwsCommand cfg :: args)

/-- The value runAwsCommand returns to its callers: the captured stdout and
stderr texts (the field name sterr is the one used by the source).  The
numeric exit status of the process is not part of it. -/
structure CommandOutput where
  stdout : String
  sterr : String
  deriving DecidableEq

/-- The externally observable actions of one operation: the log lines
written through serverless.cli.log in order, and the invocations handed to
spawnSync (command string paired with the args array) in order. -/
structure OpTrace where
  logs : List String
  commandsRun : List (String × List String)
  deriving DecidableEq

/-- Embeds runAwsCommand (lines 165-184): builds the command string, spawns
it synchronously with the args, converts both captured streams to text,
logs the stdout text when truthy and then the stderr text when truthy, and
returns both texts. -/
def runAwsCommand (env : Env) (args : List String) : OpTrace × CommandOutput :=
  let command := buildAwsCommand env.provider
  let result := env.spawn command args
  let stdout := result.stdout
  let sterr := result.stderr
  (⟨(if jsFalsy stdout then [] else [stdout]) ++ (if jsFalsy sterr then [] else [sterr]),
    [(command, args)]⟩,
   ⟨stdout, sterr⟩)

/-- Embeds syncDirectory (lines 73-88).  The entry point starts the promise
chain and returns undefined without awaiting it and without attaching a
rejection handler, so the trace is all that is observable.  When the bucket
output resolves, the callback logs the args array, runs the s3 sync
command, and logs a success line when the captured stderr is falsy; when
resolution rejects, the callback never runs and the rejection is discarded
unhandled, producing no log line. -/
def syncDirectory (env : Env) : OpTrace :=
  match getDescribeStacksOutput env.describeStacksResult "WebAppS3BucketOutput" with
  | Except.ok s3Bucket =>
    let args := ["s3", "sync", env.s3LocalPath, "s3://" ++ s3Bucket ++ "/"]
    let (rtrace, out) := runAwsCommand env args
    ⟨jsArrayToString args :: rtrace.logs ++
        (if jsFalsy out.sterr then ["Successfully synced to the S3 bucket"] else []),
      rtrace.commandsRun⟩
  | Except.error _ => ⟨[], []⟩

/-- Embeds emptyBucket (lines 91-104), structured like syncDirectory but
without the args log line: it runs s3 rm recursively on the bucket and, on
falsy captured stderr, logs the same success line as syncDirectory. -/
def emptyBucket (env : Env) : OpTrace :=
  match getDescribeStacksOutput env.describeStacksResult "WebAppS3BucketOutput" with
  | Except.ok s3Bucket =>
    let args := ["s3", "rm", "s3://" ++ s3Bucket ++ "/", "--recursive"]
    let (rtrace, out) := runAwsCommand env args
    ⟨rtrace.logs ++
        (if jsFalsy out.sterr then ["Successfully synced to the S3 bucket"] else []),
      rtrace.commandsRun⟩
  | Except.error _ => ⟨[], []⟩

/-- Embeds bucketInfo (lines 107-111): resolves the bucket output and logs
one line interpolating outputValue || Not Found.  The entry point neither
returns nor awaits the chain, and a rejected resolution leaves the callback
unrun, so nothing is logged and nothing is observable in that case. -/
def bucketInfo (env : Env) : OpTrace :=
  match getDescribeStacksOutput env.describeStacksResult "WebAppS3BucketOutput" with
  | Except.ok outputValue => ⟨["Web App Bucket: " ++ jsOr outputValue "Not Found"], []⟩
  | Except.error _ => ⟨[], []⟩

/-- Embeds domainInfo (lines 114-119): resolves the distribution output,
logs one line interpolating outputValue || Not Found, and returns the raw
outputValue.  Unlike the other info operations it returns its promise, so a
rejected resolution is observable at the entry point as the second
component; the callback then never runs and nothing is logged. -/
def domainInfo (env : Env) : OpTrace × Except JsError String :=
  match getDescribeStacksOutput env.describeStacksResult "WebAppCloudFrontDistributionOutput" with
  | Except.ok outputValue =>
    (⟨["Web App Domain: " ++ jsOr outputValue "Not Found"], []⟩, Except.ok outputValue)
  | Except.error e => (⟨[], []⟩, Except.error e)

/-- Embeds invalidateCache (lines 121-163): awaits domainInfo, awaits the
listDistributions request, scans Items with find for a DomainName strictly
equal to the resolved domain, and either runs the create-invalidation
command for the matched Id (throwing when the captured stderr is truthy)
or, with no match, logs and throws an Error naming the domain without
running any command. -/
def invalidateCache (env : Env) : OpTrace × Except JsError Unit :=
  let (dtrace, domainRes) := domainInfo env
  match domainRes with
  | Except.error e => (dtrace, Except.error e)
  | Except.ok domain =>
    match env.listDistributionsResult with
    | Except.error e => (dtrace, Except.error e)
    | Except.ok result =>
      let distributions := result.DistributionList.Items
      match distributions.find? (fun entry => entry.DomainName == domain) with
      | some distribution =>
        let args := ["cloudfront", "create-invalidation", "--distribution-id",
          distribution.Id, "--paths", "\"/*\""]
        let (rtrace, out) := runAwsCommand env args
        if jsFalsy out.sterr then
          (⟨dtrace.logs ++
              ("Invalidating CloudFront distribution with id: " ++ distribution.Id) ::
              rtrace.logs ++ ["Successfully invalidated CloudFront cache"],
            dtrace.commandsRun ++ rtrace.commandsRun⟩,
           Except.ok ())
        else
          (⟨dtrace.logs ++
              ("Invalidating CloudFront distribution with id: " ++ distribution.Id) ::
              rtrace.logs,
            dtrace.commandsRun ++ rtrace.commandsRun⟩,
           Except.error (JsError.error "Failed invalidating CloudFront cache"))
      | none =>
        let message := "Could not find distribution with domain " ++ domain
        (⟨dtrace.logs ++ [message], dtrace.commandsRun⟩,
         Except.error (JsError.error message))

/-- Modifier tokens prescribed by the specification for the Command Runner:
a region pair when the region is set (truthy), then a profile pair when the
profile is set (truthy).  This definition follows the words of the
specification and is compared against the command string the source
builds. -/
def specModifierTokens (cfg : ProviderConfig) : List String :=
  (match cfg.region with
   | some r => if jsFalsy r then [] else ["--region", r]
   | none => []) ++
  (match cfg.profile with
   | some p => if jsFalsy p then [] else ["--profile", p]
   | none => [])

/-- The full invocation token sequence prescribed by the specification: the
program name, the modifier pairs, then the caller-supplied tokens in their
original order. -/
def specInvocationTokens (cfg : ProviderConfig) (args : List String) : List String :=
  "aws" :: (specModifierTokens cfg ++ args)

/-- Two sequential invocations of bucketInfo; the provider state seen by
the first and by the second call are separate inputs because the source
re-fetches the description on every call. -/
def bucketInfoTwice (s1 s2 : Except JsError DescribeStacksResponse)
    (ld : Except JsError ListDistributionsResponse) (cfg : ProviderConfig)
    (path : String) (sp : String → List String → SpawnResult) : OpTrace × OpTrace :=
  (bucketInfo ⟨s1, ld, cfg, path, sp⟩, bucketInfo ⟨s2, ld, cfg, path, sp⟩)

/-- Two sequential invocations of domainInfo, analogous to
bucketInfoTwice. -/
def domainInfoTwice (s1 s2 : Except JsError DescribeStacksResponse)
    (ld : Except JsError ListDistributionsResponse) (cfg : ProviderConfig)
    (path : String) (sp : String → List String → SpawnResult) :
    (OpTrace × Except JsError String) × (OpTrace × Except JsError String) :=
  (domainInfo ⟨s1, ld, cfg, path, sp⟩, domainInfo ⟨s2, ld, cfg, path, sp⟩)

theorem joinTokens_glue (t a : String) (ts : List String) :
    joinTokens ((t ++ " " ++ a) :: ts) = joinTokens (t :: a :: ts) := rfl

theorem foldl_sep (x y : String) (l : List String) :
    l.foldl (fun acc s => acc ++ " " ++ s) (x ++ " " ++ y)
      = x ++ " " ++ l.foldl (fun acc s => acc ++ " " ++ s) y := by
  induction l generalizing y with
  | nil => rfl
  | cons z l ih =>
    simp only [List.foldl_cons]
    rw [String.append_assoc (x ++ " " ++ y), String.append_assoc (x ++ " "),
      ← String.append_assoc y]
    exact ih (y ++ " " ++ z)

theorem joinTokens_cons_cons (x y : String) (l : List String) :
    joinTokens (x :: y :: l) = x ++ " " ++ joinTokens (y :: l) := by
  simpa only [joinTokens, List.foldl_cons] using (foldl_sep x y l)

theorem joinTokens_head (t : String) (l args : List String) :
    joinTokens (joinTokens (t :: l) :: args) = joinTokens (t :: (l ++ args)) := by
  induction l generalizing t with
  | nil => rfl
  | cons y l ih =>
    rw [joinTokens_cons_cons t y l, joinTokens_glue, joinTokens_cons_cons, ih,
      ← joinTokens_cons_cons]
    rfl

theorem buildAwsCommand_eq_joinTokens (cfg : ProviderConfig) :
    buildAwsCommand cfg = joinTokens ("aws" :: specModifierTokens cfg) := by
  rcases cfg with ⟨region, profile⟩
  rcases region with _ | r <;> rcases profile with _ | p
  · rfl
  · cases hp : jsFalsy p <;>
      (simp only [buildAwsCommand, specModifierTokens, hp, Bool.false_eq_true, if_false,
        if_true, List.nil_append, joinTokens, List.foldl_cons, List.foldl_nil,
        String.append_assoc]; try rfl)
  · cases hr : jsFalsy r <;>
      (simp only [buildAwsCommand, specModifierTokens, hr, Bool.false_eq_true, if_false,
        if_true, List.append_nil, joinTokens, List.foldl_cons, List.foldl_nil,
        String.append_assoc]; try rfl)
  · cases hr : jsFalsy r <;> cases hp : jsFalsy p <;>
      simp only [buildAwsCommand, specModifierTokens, hr, hp, Bool.false_eq_true, if_false,
        if_true, List.nil_append, List.append_nil, List.cons_append, joinTokens,
        List.foldl_cons, List.foldl_nil, String.append_assoc] <;> rfl

/-- Claim C1, evaluated on the code at a failing input: with a stack
description whose outputs do not contain the requested key, the output
resolver getDescribeStacksOutput does not return a NotFound sentinel: the
property access on the undefined result of find throws, so the returned
promise rejects with a TypeError.  For a present key it does return the
exact matching value, including the empty string. -/
theorem getDescribeStacksOutput_throws_on_absent_key :
    getDescribeStacksOutput
        (Except.ok ⟨[⟨[⟨"OtherOutput", "v"⟩]⟩]⟩) "WebAppS3BucketOutput"
      = Except.error (JsError.typeError "Cannot read property OutputValue of undefined")
    ∧ getDescribeStacksOutput
        (Except.ok ⟨[⟨[⟨"WebAppS3BucketOutput", "my-bucket"⟩]⟩]⟩) "WebAppS3BucketOutput"
      = Except.ok "my-bucket"
    ∧ getDescribeStacksOutput
        (Except.ok ⟨[⟨[⟨"WebAppS3BucketOutput", ""⟩]⟩]⟩) "WebAppS3BucketOutput"
      = Except.ok "" :=
  ⟨rfl, rfl, rfl⟩

/-- Claim C2: for every token list and every provider configuration, the
final shell invocation of the Command Runner is the program name, then the
region pair when the region is set, then the profile pair when the profile
is set, then the caller-supplied tokens in their original order. -/
theorem runAwsCommand_invocation_order (cfg : ProviderConfig) (args : List String) :
    shellCommandLine cfg args = joinTokens (specInvocationTokens cfg args) := by
  show joinTokens (buildAwsCommand cfg :: args) = _
  rw [buildAwsCommand_eq_joinTokens, joinTokens_head]
  rfl

/-- Claim C3: the Runner returns the same result whatever the numeric exit
status of the process is (the status is never consulted), and the verdict
its callers test is success exactly when the captured stderr text is the
empty string. -/
theorem runner_verdict_iff_stderr_empty
    (ds : Except JsError DescribeStacksResponse)
    (ld : Except JsError ListDistributionsResponse) (cfg : ProviderConfig)
    (path sout serr : String) (st st2 : Int) (args : List String) :
    runAwsCommand ⟨ds, ld, cfg, path, fun _ _ => ⟨sout, serr, st⟩⟩ args
      = runAwsCommand ⟨ds, ld, cfg, path, fun _ _ => ⟨sout, serr, st2⟩⟩ args
    ∧ (jsFalsy (runAwsCommand ⟨ds, ld, cfg, path, fun _ _ => ⟨sout, serr, st⟩⟩ args).2.sterr = true
        ↔ serr = "") :=
  ⟨rfl, by simp [runAwsCommand, jsFalsy]⟩

/-- Claim C4: when the resolved domain matches some distribution,
invalidateCache selects the first distribution whose DomainName is exactly
equal to the domain and runs exactly one command, passing the Id of that
distribution right after the distribution-id flag. -/
theorem invalidateCache_targets_first_match
    (domain path sout : String) (st : Int) (pre post : List Distribution)
    (d : Distribution) (cfg : ProviderConfig)
    (hpre : ∀ x ∈ pre, x.DomainName ≠ domain) (hd : d.DomainName = domain) :
    (invalidateCache
        ⟨Except.ok ⟨[⟨[⟨"WebAppCloudFrontDistributionOutput", domain⟩]⟩]⟩,
         Except.ok ⟨⟨pre ++ d :: post⟩⟩, cfg, path, fun _ _ => ⟨sout, "", st⟩⟩).1.commandsRun
      = [(buildAwsCommand cfg,
          ["cloudfront", "create-invalidation", "--distribution-id", d.Id,
           "--paths", "\"/*\""])] := by
  have h1 : pre.find? (fun entry => entry.DomainName == domain) = none :=
    List.find?_eq_none.mpr (fun x hx => by simp [hpre x hx])
  have h2 : (pre ++ d :: post).find? (fun entry => entry.DomainName == domain) = some d := by
    rw [List.find?_append, h1]
    simp [List.find?_cons_of_pos, hd]
  simp [invalidateCache, domainInfo, getDescribeStacksOutput, runAwsCommand, jsFalsy, h2]

/-- Claim C4 witness: with the resolved domain d1.example.com and the
distribution list holding E123 for d1.example.com and E999 for other.com,
the single executed invalidation command targets E123. -/
theorem invalidateCache_first_match_example :
    (invalidateCache
        ⟨Except.ok ⟨[⟨[⟨"WebAppCloudFrontDistributionOutput", "d1.example.com"⟩]⟩]⟩,
         Except.ok ⟨⟨[⟨"E123", "d1.example.com"⟩, ⟨"E999", "other.com"⟩]⟩⟩,
         ⟨none, none⟩, "app", fun _ _ => ⟨"", "", 0⟩⟩).1.commandsRun
      = [("aws",
          ["cloudfront", "create-invalidation", "--distribution-id", "E123",
           "--paths", "\"/*\""])] :=
  invalidateCache_targets_first_match "d1.example.com" "app" "" 0 []
    [⟨"E999", "other.com"⟩] ⟨"E123", "d1.example.com"⟩ ⟨none, none⟩
    (by simp) rfl

/-- Claim C5: when no distribution in the listing has a DomainName equal to
the resolved domain, invalidateCache logs and raises an error whose message
names the unmatched domain, and hands no command at all to the Runner. -/
theorem invalidateCache_no_match_raises
    (domain path : String) (dists : List Distribution) (cfg : ProviderConfig)
    (sp : String → List String → SpawnResult)
    (h : ∀ x ∈ dists, x.DomainName ≠ domain) :
    invalidateCache
        ⟨Except.ok ⟨[⟨[⟨"WebAppCloudFrontDistributionOutput", domain⟩]⟩]⟩,
         Except.ok ⟨⟨dists⟩⟩, cfg, path, sp⟩
      = (⟨["Web App Domain: " ++ jsOr domain "Not Found",
           "Could not find distribution with domain " ++ domain], []⟩,
         Except.error (JsError.error ("Could not find distribution with domain " ++ domain))) := by
  have h1 : dists.find? (fun entry => entry.DomainName == domain) = none :=
    List.find?_eq_none.mpr (fun x hx => by simp [h x hx])
  simp [invalidateCache, domainInfo, getDescribeStacksOutput, h1]

/-- Claim C5 witness: with the resolved domain d1.example.com and a listing
holding only E999 for other.com, invalidateCache raises the error naming
d1.example.com and executes no command. -/
theorem invalidateCache_no_match_example :
    invalidateCache
        ⟨Except.ok ⟨[⟨[⟨"WebAppCloudFrontDistributionOutput", "d1.example.com"⟩]⟩]⟩,
         Except.ok ⟨⟨[⟨"E999", "other.com"⟩]⟩⟩, ⟨none, none⟩, "app",
         fun _ _ => ⟨"", "", 0⟩⟩
      = (⟨["Web App Domain: d1.example.com",
           "Could not find distribution with domain d1.example.com"], []⟩,
         Except.error (JsError.error "Could not find distribution with domain d1.example.com")) :=
  invalidateCache_no_match_raises "d1.example.com" "app" [⟨"E999", "other.com"⟩]
    ⟨none, none⟩ (fun _ _ => ⟨"", "", 0⟩)
    (by intro x hx; rw [List.mem_singleton] at hx; subst hx; decide)

/-- Claim C6, evaluated on the code at a failing input: with a stack
description in which the required output key is absent, bucketInfo and
domainInfo log nothing at all; the Not Found placeholder line is never
produced, because resolution rejects before the logging callback runs. -/
theorem info_ops_silent_on_absent_key :
    bucketInfo ⟨Except.ok ⟨[⟨[]⟩]⟩, Except.ok ⟨⟨[]⟩⟩, ⟨none, none⟩, "app",
        fun _ _ => ⟨"", "", 0⟩⟩ = ⟨[], []⟩
    ∧ (domainInfo ⟨Except.ok ⟨[⟨[]⟩]⟩, Except.ok ⟨⟨[]⟩⟩, ⟨none, none⟩, "app",
        fun _ _ => ⟨"", "", 0⟩⟩).1 = ⟨[], []⟩ :=
  ⟨rfl, rfl⟩

/-- Claim C7 counterexample: at a concrete provider failure, domainInfo
neither catches nor logs the error; its trace is empty and the rejection
is observable at its entry point (it is what an awaiting caller such as
invalidateCache receives), and syncDirectory logs nothing either. -/
theorem domainInfo_uncaught_failure :
    domainInfo ⟨Except.error (JsError.error "network failure"), Except.ok ⟨⟨[]⟩⟩,
        ⟨none, none⟩, "app", fun _ _ => ⟨"", "", 0⟩⟩
      = (⟨[], []⟩, Except.error (JsError.error "network failure"))
    ∧ syncDirectory ⟨Except.error (JsError.error "network failure"), Except.ok ⟨⟨[]⟩⟩,
        ⟨none, none⟩, "app", fun _ _ => ⟨"", "", 0⟩⟩ = ⟨[], []⟩ :=
  ⟨rfl, rfl⟩

/-- Claim C7 as amended: on a provider-request failure, Sync, Empty and
BucketInfo keep the error away from their entry points but do not log it
(their traces are empty: the rejection is silently discarded); DomainInfo
returns its promise, so the failure propagates past its entry point
unlogged, and InvalidateCache, awaiting it, rejects with that error. -/
theorem error_propagation_policy (e : JsError)
    (ld : Except JsError ListDistributionsResponse) (cfg : ProviderConfig)
    (path : String) (sp : String → List String → SpawnResult) :
    syncDirectory ⟨Except.error e, ld, cfg, path, sp⟩ = ⟨[], []⟩
    ∧ emptyBucket ⟨Except.error e, ld, cfg, path, sp⟩ = ⟨[], []⟩
    ∧ bucketInfo ⟨Except.error e, ld, cfg, path, sp⟩ = ⟨[], []⟩
    ∧ domainInfo ⟨Except.error e, ld, cfg, path, sp⟩ = (⟨[], []⟩, Except.error e)
    ∧ (invalidateCache ⟨Except.error e, ld, cfg, path, sp⟩).2 = Except.error e :=
  ⟨rfl, rfl, rfl, rfl, rfl⟩

/-- Claim C8: with the provider description request returning the same
outputs on both calls, two sequential invocations of bucketInfo produce
identical traces, and so do two sequential invocations of domainInfo. -/
theorem info_ops_idempotent (s : Except JsError DescribeStacksResponse)
    (ld : Except JsError ListDistributionsResponse) (cfg : ProviderConfig)
    (path : String) (sp : String → List String → SpawnResult) :
    (bucketInfoTwice s s ld cfg path sp).1 = (bucketInfoTwice s s ld cfg path sp).2
    ∧ (domainInfoTwice s s ld cfg path sp).1 = (domainInfoTwice s s ld cfg path sp).2 :=
  ⟨rfl, rfl⟩

/-- Claim C9: when the external command of the Empty operation succeeds
(empty captured stderr), the success line it logs is exactly the string
Successfully synced to the S3 bucket, the same line the Sync operation
logs, not a line about emptying a bucket. -/
theorem emptyBucket_success_message (bucket path : String)
    (ld : Except JsError ListDistributionsResponse) (cfg : ProviderConfig) :
    emptyBucket ⟨Except.ok ⟨[⟨[⟨"WebAppS3BucketOutput", bucket⟩]⟩]⟩, ld, cfg, path,
        fun _ _ => ⟨"", "", 0⟩⟩
      = ⟨["Successfully synced to the S3 bucket"],
         [(buildAwsCommand cfg, ["s3", "rm", "s3://" ++ bucket ++ "/", "--recursive"])]⟩
    ∧ syncDirectory ⟨Except.ok ⟨[⟨[⟨"WebAppS3BucketOutput", bucket⟩]⟩]⟩, ld, cfg, path,
        fun _ _ => ⟨"", "", 0⟩⟩
      = ⟨[jsArrayToString ["s3", "sync", path, "s3://" ++ bucket ++ "/"],
          "Successfully synced to the S3 bucket"],
         [(buildAwsCommand cfg, ["s3", "sync", path, "s3://" ++ bucket ++ "/"])]⟩ :=
  ⟨rfl, rfl⟩

/-- Claim C10: syncDirectory and emptyBucket neither return nor await their
promise chains, so their entry points yield no value (their result type
carries no value or error channel in this embedding), and a failed provider
description request produces no log line and no executed command. -/
theorem sync_empty_fire_and_forget (e : JsError)
    (ld : Except JsError ListDistributionsResponse) (cfg : ProviderConfig)
    (path : String) (sp : String → List String → SpawnResult) :
    syncDirectory ⟨Except.error e, ld, cfg, path, sp⟩ = ⟨[], []⟩
    ∧ emptyBucket ⟨Except.error e, ld, cfg, path, sp⟩ = ⟨[], []⟩ :=
  ⟨rfl, rfl⟩

end Plugin
